import Mathlib

/-!
# Verification of the blog content loader

A shallow embedding of the blog content loader (`getBlogPosts`, `getBlogPost`)
of this repository: filesystem state is explicit, fallible operations return
`Except`/`Option`, and the third-party collaborators that are not part of the
repository (the front-matter splitter, the reading-time estimator, `path.join`,
date parsing) are modelled from the specification's description of them.
String processing is carried out on character lists so that every definition
evaluates inside the kernel.
-/

namespace ReactJon

/-- A JavaScript value as it can appear in a parsed front-matter header or in
the fields of a post object: a string, a list of strings, `null`, or
`undefined` (the value of an absent object property). -/
inductive JSVal where
  | str : String → JSVal
  | list : List String → JSVal
  | null : JSVal
  | undefined : JSVal
deriving Repr, DecidableEq

/-- A front-matter header block: key/value metadata, keys assumed unique
(YAML mappings reject duplicate keys). -/
abbrev FrontMatter := List (String × JSVal)

/-- Content of one file on disk, at the abstraction level fixed by the spec:
either it splits into a structured header block and a body (the front-matter
parse succeeds), or the parse throws (`malformed`), or reading the file itself
throws (`unreadable`). -/
inductive FileData where
  | wellFormed (header : FrontMatter) (body : String)
  | malformed
  | unreadable
deriving Repr, DecidableEq

/-- The filesystem state visible to the loader: the listing of the content
directory (`none` when the directory does not exist, mirroring
`fs.existsSync` returning false), and the map from absolute paths to file
contents consulted by `fs.readFileSync`. -/
structure FS where
  contentDir : Option (List String)
  byPath : List (String × FileData)
deriving Repr, DecidableEq

/-- Split a character list at every occurrence of the separator character
(all separators the loader needs are single characters). -/
def splitChar (c : Char) : List Char → List (List Char)
  | [] => [[]]
  | x :: xs =>
    match splitChar c xs with
    | [] => [[x]]
    | y :: ys =>
      if x = c then [] :: y :: ys else (x :: y) :: ys

/-- Join path segments with `/` separators. -/
def joinSegs : List (List Char) → List Char
  | [] => []
  | [s] => s
  | s :: rest => s ++ '/' :: joinSegs rest

/-- Resolve successive path segments against a stack, dropping empty and `.`
segments and letting `..` pop the last real segment (as `path.join`
normalization does on absolute paths). -/
def normalizeSegs : List (List Char) → List (List Char) → List (List Char)
  | [], stack => stack.reverse
  | s :: rest, stack =>
    if s = [] ∨ s = ['.'] then normalizeSegs rest stack
    else if s = ['.', '.'] then
      match stack with
      | [] => normalizeSegs rest []
      | _ :: tl => normalizeSegs rest tl
    else normalizeSegs rest (s :: stack)

/-- Modelled from the spec: Node's `path.join` (library code, not in the
repository) — concatenate the two paths and normalize the result, resolving
`.` and `..` segments. Paths are absolute. -/
def pathJoin (a b : String) : String :=
  String.mk ('/' :: joinSegs (normalizeSegs (splitChar '/' (a.toList ++ '/' :: b.toList)) []))

/-- Modelled from the spec: the content directory is fixed configuration,
`path.join(process.cwd(), 'src/content/blog')`; the process working directory
is abstracted to the constant `/cwd`. -/
def contentDirectory : String := pathJoin "/cwd" "src/content/blog"

/-- Test whether the string ends in the given suffix (kernel-evaluable
counterpart of the `endsWith` used to recognize `.mdx` files). -/
def strEndsWith (s suffix : String) : Bool :=
  s.toList.reverse.take suffix.toList.length == suffix.toList.reverse

/-- The slug derivation `file.replace(/\.mdx$/, '')`: strip one trailing
`.mdx` extension when present. -/
def stripMdx (file : String) : String :=
  if strEndsWith file ".mdx" then String.mk (file.toList.take (file.toList.length - 4))
  else file

/-- Modelled from the spec: `fs.readFileSync` — return the file's data, or
throw (here: `Except.error`) when the path has no file or the file is
unreadable. -/
def readFileSync (st : FS) (p : String) : Except Unit FileData :=
  match st.byPath.lookup p with
  | some FileData.unreadable => .error ()
  | some fd => .ok fd
  | none => .error ()

/-- Modelled from the spec: the `matter` front-matter splitter (gray-matter,
library code not in the repository) — split a file into its structured header
block and its body, throwing on a malformed header. Files are represented at
exactly that abstraction level by `FileData`. -/
def matter : FileData → Except Unit (FrontMatter × String)
  | .wellFormed header body => .ok (header, body)
  | .malformed => .error ()
  | .unreadable => .error ()

/-- Read the file at a path and split off its front matter: the composition
`matter(fs.readFileSync(path, 'utf8'))` both loader operations perform, with
either failure propagating. -/
def readParse (st : FS) (p : String) : Except Unit (FrontMatter × String) :=
  match readFileSync st p with
  | .error e => .error e
  | .ok fd => matter fd

/-- Count the maximal whitespace-free runs in a character list; the flag
records whether the previous character was inside a word. -/
def countWordsAux : List Char → Bool → Nat
  | [], _ => 0
  | c :: cs, inWord =>
    if c.isWhitespace then countWordsAux cs false
    else (if inWord then 0 else 1) + countWordsAux cs true

/-- Modelled from the spec: the reading-time estimator (library code, not in
the repository) — word count of the body at ≈200 words/minute, rounded up,
rendered as an "X min read" string. -/
def readingTimeText (content : String) : String :=
  toString ((countWordsAux content.toList false + 199) / 200) ++ " min read"

/-- Property access `data.k` on the parsed header object: the value bound to
the key, or `undefined` when the key is absent. -/
def fmGet (data : FrontMatter) (k : String) : JSVal :=
  (data.lookup k).getD .undefined

/-- Truthiness of a `JSVal` under JavaScript coercion: `undefined`, `null` and
the empty string are falsy; non-empty strings and arrays (even empty ones)
are truthy. -/
def jsTruthy : JSVal → Bool
  | .undefined => false
  | .null => false
  | .str s => s ≠ ""
  | .list _ => true

/-- The JavaScript `x || y` default: `y` when `x` is falsy, else `x`. -/
def jsOr (v d : JSVal) : JSVal :=
  if jsTruthy v then v else d

/-- Effect of the trailing `...data` spread on one field of the post object
literal: when `data` binds the key the spread's value wins, otherwise the
explicitly written base value stands. -/
def withSpread (data : FrontMatter) (k : String) (base : JSVal) : JSVal :=
  (data.lookup k).getD base

/-- The keys written explicitly in the post object literal; header keys other
than these survive only through the open `...data` passthrough. -/
def fixedKeys : List String :=
  ["slug", "title", "date", "excerpt", "tags", "readingTime", "content"]

/-- A `BlogPost` record: the seven explicitly written fields of the object
literal (each possibly overridden by the `...data` spread) plus the remaining
passthrough metadata. -/
structure BlogPost where
  slug : JSVal
  title : JSVal
  date : JSVal
  excerpt : JSVal
  tags : JSVal
  readingTime : JSVal
  content : JSVal
  extra : FrontMatter
deriving Repr, DecidableEq

/-- The post object literal shared by `getBlogPosts` and `getBlogPost`:
`{ slug, title: data.title, date: data.date, excerpt: data.excerpt || '',
tags: data.tags || [], readingTime, content, ...data }`. The trailing spread
re-binds every key present in `data`, so each explicit field is wrapped in
`withSpread`. -/
def mkPost (slug : String) (data : FrontMatter) (content : String) : BlogPost :=
  { slug := withSpread data "slug" (.str slug)
    title := withSpread data "title" (fmGet data "title")
    date := withSpread data "date" (fmGet data "date")
    excerpt := withSpread data "excerpt" (jsOr (fmGet data "excerpt") (.str ""))
    tags := withSpread data "tags" (jsOr (fmGet data "tags") (.list []))
    readingTime := withSpread data "readingTime" (.str (readingTimeText content))
    content := withSpread data "content" (.str content)
    extra := data.filter (fun kv => ¬ fixedKeys.contains kv.1) }

/-- Numeric value of a digit list (most significant first). -/
def digitsVal (l : List Char) : Nat :=
  l.foldl (fun acc c => acc * 10 + (c.toNat - 48)) 0

/-- Modelled from the spec: `new Date(s).getTime()` on an ISO-like date
string — `some` of an order-isomorphic numeric key for a parseable
`YYYY-MM-DD` date, `none` otherwise ("date is a parseable calendar date";
behavior on unparseable dates is undefined per the spec). -/
def parseDate : JSVal → Option Nat
  | .str s =>
    match splitChar '-' s.toList with
    | [y, m, d] =>
      if y.length = 4 ∧ m.length = 2 ∧ d.length = 2 ∧
          (y ++ m ++ d).all Char.isDigit then
        if 1 ≤ digitsVal m ∧ digitsVal m ≤ 12 ∧ 1 ≤ digitsVal d ∧ digitsVal d ≤ 31 then
          some (digitsVal y * 10000 + digitsVal m * 100 + digitsVal d)
        else none
      else none
    | _ => none
  | _ => none

/-- Numeric sort key of a post's `date` field; unparseable dates get key 0
(their placement is undefined behavior per the spec — any fixed key makes the
model's sort total). -/
def dateKey (v : JSVal) : Nat :=
  (parseDate v).getD 0

/-- The comparator `(a, b) => new Date(b.date).getTime() - new Date(a.date).getTime()`
as an ordering relation: `a` sorts no later than `b` when `a`'s date key is at
least `b`'s (descending by date). -/
def postLe (a b : BlogPost) : Prop :=
  dateKey b.date ≤ dateKey a.date

instance : DecidableRel postLe :=
  fun a b => inferInstanceAs (Decidable (dateKey b.date ≤ dateKey a.date))

instance : IsTotal BlogPost postLe :=
  ⟨fun a b => Nat.le_total (dateKey b.date) (dateKey a.date)⟩

instance : IsTrans BlogPost postLe :=
  ⟨fun _ _ _ h1 h2 => Nat.le_trans h2 h1⟩

/-- Body of the `.map` callback in `getBlogPosts`: join the directory with the
file name, read the file, split off the front matter, and build the post.
Read or parse failures propagate (the callback has no try/catch). -/
def postOfFile (st : FS) (file : String) : Except Unit BlogPost :=
  match readParse st (pathJoin contentDirectory file) with
  | .error e => .error e
  | .ok dc => .ok (mkPost (stripMdx file) dc.1 dc.2)

/-- The `.map` over the filtered file list, sequential and fallible: the first
file whose read or parse throws aborts the whole mapping, as an uncaught
exception inside `Array.prototype.map` does. -/
def mapPosts (st : FS) : List String → Except Unit (List BlogPost)
  | [] => .ok []
  | f :: fs =>
    match postOfFile st f with
    | .error e => .error e
    | .ok p =>
      match mapPosts st fs with
      | .error e => .error e
      | .ok ps => .ok (p :: ps)

/-- The loader's list operation `getBlogPosts`: empty result when the content
directory does not exist; otherwise filter the listing to `.mdx` files, map
each to a post (any uncaught read/parse error aborts the call), and sort by
date descending. The JS engine's sort is stable and, for this consistent
comparator, agrees with every stable sort; it is modelled by `insertionSort`. -/
def getBlogPosts (st : FS) : Except Unit (List BlogPost) :=
  match st.contentDir with
  | none => .ok []
  | some files =>
    match mapPosts st (files.filter (fun file => strEndsWith file ".mdx")) with
    | .error e => .error e
    | .ok posts => .ok (posts.insertionSort postLe)

/-- The loader's single-post operation `getBlogPost`: read and parse the file
at `path.join(contentDirectory, slug + '.mdx')`; the surrounding try/catch
turns any read or parse failure into `null` (here: `none`). -/
def getBlogPost (st : FS) (slug : String) : Option BlogPost :=
  match readParse st (pathJoin contentDirectory (slug ++ ".mdx")) with
  | .error _ => none
  | .ok dc => some (mkPost slug dc.1 dc.2)

/-- Modelled from the spec: "a file written with header fields
{title, date, excerpt, tags} and body text B" — the content file whose header
block binds exactly those four keys to the given values and whose body is
`body`. -/
def writePostFile (title date excerpt : String) (tags : List String)
    (body : String) : FileData :=
  .wellFormed
    [("title", .str title), ("date", .str date),
     ("excerpt", .str excerpt), ("tags", .list tags)] body

/-- Test whether the string starts with the given prefix (used to state that a
resolved path lies outside the content directory). -/
def strStartsWith (s pre : String) : Bool :=
  s.toList.take pre.toList.length == pre.toList

/-- Header of the sample post in `a.mdx`: no `excerpt`, no `tags`. -/
def fmA : FrontMatter :=
  [("title", .str "Alpha"), ("date", .str "2025-01-02")]

/-- Header of the sample post in `b.mdx`: all four recognized keys present. -/
def fmB : FrontMatter :=
  [("title", .str "Beta"), ("date", .str "2025-03-01"),
   ("excerpt", .str "intro"), ("tags", .list ["react"])]

/-- A healthy content directory: two well-formed posts and one file whose name
does not carry the recognized extension. -/
def stSample : FS :=
  { contentDir := some ["a.mdx", "b.mdx", "notes.txt"]
    byPath :=
      [(pathJoin contentDirectory "a.mdx", .wellFormed fmA "hello world"),
       (pathJoin contentDirectory "b.mdx", .wellFormed fmB "body two")] }

/-- A content directory in which `bad.mdx` exists but cannot be read, next to
a perfectly good post. -/
def stBad : FS :=
  { contentDir := some ["good.mdx", "bad.mdx"]
    byPath :=
      [(pathJoin contentDirectory "good.mdx", .wellFormed fmA "fine"),
       (pathJoin contentDirectory "bad.mdx", .unreadable)] }

/-- A content directory in which `badp.mdx` reads fine but its header block is
malformed, next to a perfectly good post. -/
def stBadParse : FS :=
  { contentDir := some ["good.mdx", "badp.mdx"]
    byPath :=
      [(pathJoin contentDirectory "good.mdx", .wellFormed fmA "fine"),
       (pathJoin contentDirectory "badp.mdx", .malformed)] }

/-- Header that itself binds `slug`, colliding with the filename-derived one. -/
def fmSlug : FrontMatter :=
  [("slug", .str "b"), ("title", .str "T"), ("date", .str "2025-01-01")]

/-- A content directory holding one valid file `a.mdx` whose header carries its
own `slug` key. -/
def stSlugOverride : FS :=
  { contentDir := some ["a.mdx"]
    byPath := [(pathJoin contentDirectory "a.mdx", .wellFormed fmSlug "x")] }

/-- A filesystem with a round-trip fixture at `post.mdx`. -/
def stRound : FS :=
  { contentDir := some ["post.mdx"]
    byPath :=
      [(pathJoin contentDirectory "post.mdx",
        writePostFile "T" "2025-05-05" "E" ["t1", "t2"] "Body text")] }

/-- A filesystem with no file under the content directory but one file right
outside it, at `/cwd/src/content/secret.mdx`. -/
def stEscape : FS :=
  { contentDir := some []
    byPath :=
      [("/cwd/src/content/secret.mdx",
        .wellFormed [("title", .str "S"), ("date", .str "2025-02-02")] "outside")] }

/-- Header binding values that collide with every derived or defaulted field of
the post object literal. -/
def fmOverride : FrontMatter :=
  [("slug", .str "other"), ("title", .str "T2"), ("date", .str "2024-12-31"),
   ("excerpt", JSVal.null), ("tags", JSVal.null),
   ("readingTime", .str "fake"), ("content", .str "shadow")]

end ReactJon

deriving instance DecidableEq for Except

namespace ReactJon

/-- When some element of the list fails, the sequential fallible map over the
whole list fails. -/
theorem mapPosts_error_of_mem (st : FS) {l : List String} {f : String}
    (hmem : f ∈ l) (hfail : postOfFile st f = .error ()) :
    mapPosts st l = .error () := by
  induction l with
  | nil => cases hmem
  | cons x xs ih =>
    rcases List.mem_cons.mp hmem with h | h
    · subst h
      unfold mapPosts
      rw [hfail]
    · unfold mapPosts
      cases hx : postOfFile st x with
      | error e => rfl
      | ok p =>
        rw [ih h]

/-- When the sequential fallible map succeeds, its result pairs up with the
input list element by element. -/
theorem mapPosts_ok_forall₂ (st : FS) {l : List String} {ps : List BlogPost}
    (h : mapPosts st l = .ok ps) :
    List.Forall₂ (fun f p => postOfFile st f = .ok p) l ps := by
  induction l generalizing ps with
  | nil =>
    unfold mapPosts at h
    cases h
    exact List.Forall₂.nil
  | cons x xs ih =>
    unfold mapPosts at h
    split at h
    · cases h
    · rename_i p hx
      split at h
      · cases h
      · rename_i qs hqs
        cases h
        exact List.Forall₂.cons hx (ih hqs)

/-- C1. Whenever `getBlogPosts` returns a list and the dates of the returned
posts are parseable calendar dates (the spec's data-model invariant), every
adjacent pair (A, B) of the result satisfies A.date ≥ B.date: the list is
ordered by date descending, most recent first. -/
theorem getBlogPosts_sorted_desc (st : FS) (posts : List BlogPost)
    (hok : getBlogPosts st = .ok posts)
    (hdates : ∀ p ∈ posts, (parseDate p.date).isSome) :
    posts.Chain' (fun a b => dateKey b.date ≤ dateKey a.date) := by
  unfold getBlogPosts at hok
  split at hok
  · cases hok
    exact List.chain'_nil
  · split at hok
    · cases hok
    · cases hok
      next ps hmap =>
      exact (List.sorted_insertionSort postLe ps).chain'

/-- C1 witness: on the sample directory the loader returns the two posts,
newest first, and the adjacency property holds for them. -/
theorem getBlogPosts_sorted_desc_witness :
    getBlogPosts stSample = .ok [mkPost "b" fmB "body two", mkPost "a" fmA "hello world"] ∧
    List.Chain' (fun a b => dateKey b.date ≤ dateKey a.date)
      [mkPost "b" fmB "body two", mkPost "a" fmA "hello world"] :=
  ⟨by decide,
   getBlogPosts_sorted_desc stSample
     [mkPost "b" fmB "body two", mkPost "a" fmA "hello world"]
     (by decide) (by decide)⟩

/-- C2. When the content directory does not exist, or exists but is empty,
`getBlogPosts` returns the empty list and no error. -/
theorem getBlogPosts_missing_or_empty (st : FS)
    (h : st.contentDir = none ∨ st.contentDir = some []) :
    getBlogPosts st = .ok [] := by
  rcases h with h | h <;> unfold getBlogPosts <;> rw [h]
  rfl

/-- C2 witness: both the absent-directory state and the empty-directory state
yield the empty list. -/
theorem getBlogPosts_missing_or_empty_witness :
    getBlogPosts { contentDir := none, byPath := [] } = .ok [] ∧
    getBlogPosts { contentDir := some [], byPath := [] } = .ok [] :=
  ⟨getBlogPosts_missing_or_empty _ (Or.inl rfl),
   getBlogPosts_missing_or_empty _ (Or.inr rfl)⟩

/-- C3 counterexample: in a directory holding the good post `good.mdx` and an
unreadable `bad.mdx`, `getBlogPosts` does not return the good post — the
uncaught read error aborts the whole call (there is no try/catch in
`getBlogPosts`), contradicting the claim that the bad file is excluded and the
others returned. -/
theorem getBlogPosts_bad_file_counterexample :
    getBlogPosts stBad = .error () := by decide

/-- C3 amended: if any file with the recognized extension in the listing fails
to read or parse, `getBlogPosts` propagates the error to the caller and
returns no posts at all; read/parse errors are caught locally only in
`getBlogPost`. -/
theorem getBlogPosts_error_propagates (st : FS) (files : List String)
    (file : String)
    (hdir : st.contentDir = some files) (hmem : file ∈ files)
    (hext : strEndsWith file ".mdx" = true)
    (hfail : postOfFile st file = .error ()) :
    getBlogPosts st = .error () := by
  have hmem' : file ∈ files.filter (fun f => strEndsWith f ".mdx") :=
    List.mem_filter.mpr ⟨hmem, hext⟩
  have hm := mapPosts_error_of_mem st hmem' hfail
  unfold getBlogPosts
  simp only [hdir, hm]

/-- C3 witness: a malformed header in `badp.mdx` makes the whole listing call
fail. -/
theorem getBlogPosts_error_propagates_witness :
    getBlogPosts stBadParse = .error () :=
  getBlogPosts_error_propagates stBadParse ["good.mdx", "badp.mdx"] "badp.mdx"
    rfl (by decide) (by decide) (by decide)

/-- C4. For every slug, when the file at the joined path is missing,
unreadable, or fails to parse, `getBlogPost` returns `none` (the "not found"
signal) instead of propagating the error; when read and parse succeed it
returns the parsed post. -/
theorem getBlogPost_not_found_or_parsed (st : FS) (slug : String) :
    (readParse st (pathJoin contentDirectory (slug ++ ".mdx")) = .error () →
      getBlogPost st slug = none) ∧
    ∀ data content,
      readParse st (pathJoin contentDirectory (slug ++ ".mdx")) = .ok (data, content) →
      getBlogPost st slug = some (mkPost slug data content) := by
  constructor
  · intro h
    unfold getBlogPost
    rw [h]
  · intro data content h
    unfold getBlogPost
    rw [h]

/-- C4 witness: on the sample directory, the absent slug `nope` yields `none`
and the present slug `a` yields its parsed post. -/
theorem getBlogPost_not_found_or_parsed_witness :
    getBlogPost stSample "nope" = none ∧
    getBlogPost stSample "a" = some (mkPost "a" fmA "hello world") :=
  ⟨(getBlogPost_not_found_or_parsed stSample "nope").1 (by decide),
   (getBlogPost_not_found_or_parsed stSample "a").2 fmA "hello world" (by decide)⟩

/-- C5 counterexample: the valid content file `a.mdx`, whose header itself
binds `slug: "b"`, parses — via `getBlogPosts` — to a post whose slug is the
header value, not the filename without its extension, because the `...data`
spread overrides the derived slug. -/
theorem post_slug_counterexample :
    getBlogPosts stSlugOverride = .ok [mkPost "a" fmSlug "x"] ∧
    (mkPost "a" fmSlug "x").slug ≠ .str "a" :=
  ⟨by decide, by decide⟩

/-- C5 amended: for every content file that reads and parses successfully and
whose header does not itself bind a `slug` key, the parsed post's slug equals
the source filename with its extension removed (a header `slug` key overrides
the filename-derived value through the `...data` spread). -/
theorem postOfFile_slug_from_filename (st : FS) (file : String)
    (data : FrontMatter) (content : String)
    (hread : readParse st (pathJoin contentDirectory file) = .ok (data, content))
    (hnoslug : data.lookup "slug" = none) :
    postOfFile st file = .ok (mkPost (stripMdx file) data content) ∧
    (mkPost (stripMdx file) data content).slug = .str (stripMdx file) := by
  constructor
  · unfold postOfFile
    rw [hread]
  · simp [mkPost, withSpread, hnoslug]

/-- C5 witness: the header of `a.mdx` has no `slug` key, so its post's slug is
`a`. -/
theorem postOfFile_slug_from_filename_witness :
    postOfFile stSample "a.mdx" = .ok (mkPost (stripMdx "a.mdx") fmA "hello world") ∧
    (mkPost (stripMdx "a.mdx") fmA "hello world").slug = .str (stripMdx "a.mdx") :=
  postOfFile_slug_from_filename stSample "a.mdx" fmA "hello world"
    (by decide) (by decide)

/-- C6. A header lacking an `excerpt` key yields the empty-string excerpt, and
a header lacking a `tags` key yields the empty tag collection, in the post
object literal shared by `getBlogPosts` and `getBlogPost`. -/
theorem post_default_excerpt_tags (slug : String) (data : FrontMatter)
    (content : String) :
    (data.lookup "excerpt" = none → (mkPost slug data content).excerpt = .str "") ∧
    (data.lookup "tags" = none → (mkPost slug data content).tags = .list []) := by
  constructor
  · intro h
    simp [mkPost, withSpread, fmGet, jsOr, jsTruthy, h]
  · intro h
    simp [mkPost, withSpread, fmGet, jsOr, jsTruthy, h]

/-- C6 witness: the sample header `fmA` binds neither `excerpt` nor `tags`. -/
theorem post_default_excerpt_tags_witness :
    (mkPost "a" fmA "hello world").excerpt = .str "" ∧
    (mkPost "a" fmA "hello world").tags = .list [] :=
  ⟨(post_default_excerpt_tags "a" fmA "hello world").1 (by decide),
   (post_default_excerpt_tags "a" fmA "hello world").2 (by decide)⟩

/-- C7. Round trip: a file written with header fields {title, date, excerpt,
tags} and body text B, placed where `getBlogPost` looks for the slug, parses
to a post whose content equals B exactly and whose title, date, excerpt and
tags equal the header values verbatim. -/
theorem writePostFile_round_trip (st : FS) (slug title date excerpt : String)
    (tags : List String) (body : String)
    (hfile : readFileSync st (pathJoin contentDirectory (slug ++ ".mdx")) =
      .ok (writePostFile title date excerpt tags body)) :
    ∃ p, getBlogPost st slug = some p ∧
      p.content = .str body ∧ p.title = .str title ∧ p.date = .str date ∧
      p.excerpt = .str excerpt ∧ p.tags = .list tags := by
  refine ⟨mkPost slug
    [("title", .str title), ("date", .str date),
     ("excerpt", .str excerpt), ("tags", .list tags)] body,
    ?_, rfl, rfl, rfl, rfl, rfl⟩
  unfold getBlogPost readParse
  rw [hfile]
  rfl

/-- C7 witness: the round-trip fixture at `post.mdx` comes back verbatim. -/
theorem writePostFile_round_trip_witness :
    ∃ p, getBlogPost stRound "post" = some p ∧
      p.content = .str "Body text" ∧ p.title = .str "T" ∧
      p.date = .str "2025-05-05" ∧ p.excerpt = .str "E" ∧
      p.tags = .list ["t1", "t2"] :=
  writePostFile_round_trip stRound "post" "T" "2025-05-05" "E" ["t1", "t2"]
    "Body text" (by decide)

/-- C8. When the content directory listing is `files` and mapping every file
with the recognized extension succeeds, `getBlogPosts` succeeds and its result
is a permutation (reordering only) of exactly one parsed post per `.mdx`
file — element-for-element, same length — while files without the extension
never contribute. -/
theorem getBlogPosts_one_per_mdx (st : FS) (files : List String)
    (ps : List BlogPost)
    (hdir : st.contentDir = some files)
    (hmap : mapPosts st (files.filter (fun f => strEndsWith f ".mdx")) = .ok ps) :
    ∃ posts, getBlogPosts st = .ok posts ∧ posts.Perm ps ∧
      List.Forall₂ (fun f p => postOfFile st f = .ok p)
        (files.filter (fun f => strEndsWith f ".mdx")) ps ∧
      posts.length = (files.filter (fun f => strEndsWith f ".mdx")).length := by
  refine ⟨ps.insertionSort postLe, ?_, List.perm_insertionSort postLe ps,
    mapPosts_ok_forall₂ st hmap, ?_⟩
  · unfold getBlogPosts
    simp only [hdir, hmap]
  · rw [(List.perm_insertionSort postLe ps).length_eq]
    exact ((mapPosts_ok_forall₂ st hmap).length_eq).symm

/-- C8 witness: on the sample directory the two `.mdx` files each contribute
exactly one post and `notes.txt` contributes none. -/
theorem getBlogPosts_one_per_mdx_witness :
    ∃ posts, getBlogPosts stSample = .ok posts ∧
      posts.Perm [mkPost "a" fmA "hello world", mkPost "b" fmB "body two"] ∧
      List.Forall₂ (fun f p => postOfFile stSample f = .ok p)
        ((["a.mdx", "b.mdx", "notes.txt"] : List String).filter
          (fun f => strEndsWith f ".mdx"))
        [mkPost "a" fmA "hello world", mkPost "b" fmB "body two"] ∧
      posts.length = ((["a.mdx", "b.mdx", "notes.txt"] : List String).filter
        (fun f => strEndsWith f ".mdx")).length :=
  getBlogPosts_one_per_mdx stSample ["a.mdx", "b.mdx", "notes.txt"]
    [mkPost "a" fmA "hello world", mkPost "b" fmB "body two"] rfl (by decide)

/-- C9. The `...data` spread is merged after the derived and defaulted fields
of the post object literal, so a header key colliding with any of the seven
explicit fields wins: the post carries the front-matter value for that field
(in particular a header `slug` replaces the filename-derived slug, and
`excerpt: null` yields `null` instead of the empty-string default). -/
theorem post_spread_overrides (slug : String) (data : FrontMatter)
    (content : String) (v : JSVal) :
    (data.lookup "slug" = some v → (mkPost slug data content).slug = v) ∧
    (data.lookup "title" = some v → (mkPost slug data content).title = v) ∧
    (data.lookup "date" = some v → (mkPost slug data content).date = v) ∧
    (data.lookup "excerpt" = some v → (mkPost slug data content).excerpt = v) ∧
    (data.lookup "tags" = some v → (mkPost slug data content).tags = v) ∧
    (data.lookup "readingTime" = some v → (mkPost slug data content).readingTime = v) ∧
    (data.lookup "content" = some v → (mkPost slug data content).content = v) := by
  refine ⟨?_, ?_, ?_, ?_, ?_, ?_, ?_⟩ <;> intro h <;>
    simp [mkPost, withSpread, h]

/-- C9 witness: a header overriding every collidable field wins on each of
them, including `excerpt: null` suppressing the empty-string default. -/
theorem post_spread_overrides_witness :
    (mkPost "a" fmOverride "body").slug = .str "other" ∧
    (mkPost "a" fmOverride "body").excerpt = JSVal.null ∧
    (mkPost "a" fmOverride "body").tags = JSVal.null ∧
    (mkPost "a" fmOverride "body").readingTime = .str "fake" ∧
    (mkPost "a" fmOverride "body").content = .str "shadow" :=
  ⟨(post_spread_overrides "a" fmOverride "body" (.str "other")).1 (by decide),
   (post_spread_overrides "a" fmOverride "body" JSVal.null).2.2.2.1 (by decide),
   (post_spread_overrides "a" fmOverride "body" JSVal.null).2.2.2.2.1 (by decide),
   (post_spread_overrides "a" fmOverride "body" (.str "fake")).2.2.2.2.2.1 (by decide),
   (post_spread_overrides "a" fmOverride "body" (.str "shadow")).2.2.2.2.2.2 (by decide)⟩

/-- C10. `getBlogPost` reads exactly the file at
`path.join(contentDirectory, slug + '.mdx')`, with no validation that the
resolved path stays inside the content directory; in particular the slug
`../secret` resolves to `/cwd/src/content/secret.mdx`, outside the content
directory, and yields a post built from that outside file rather than the
"not found" signal. -/
theorem getBlogPost_no_path_validation :
    (∀ st slug, getBlogPost st slug =
      match readParse st (pathJoin contentDirectory (slug ++ ".mdx")) with
      | .error _ => none
      | .ok dc => some (mkPost slug dc.1 dc.2)) ∧
    pathJoin contentDirectory ("../secret" ++ ".mdx") = "/cwd/src/content/secret.mdx" ∧
    strStartsWith "/cwd/src/content/secret.mdx" (contentDirectory ++ "/") = false ∧
    getBlogPost stEscape "../secret" =
      some (mkPost "../secret"
        [("title", .str "S"), ("date", .str "2025-02-02")] "outside") :=
  ⟨fun _ _ => rfl, by decide, by decide, by decide⟩

end ReactJon
